import Mathlib

/-!
Shallow embedding of the fragrance-chatbot service core (src/main.py):
the session model, the heuristic user-information extractor
(`extract_user_info`), the conversation-stage state machine
(`update_conversation_stage`), the streaming response generator
(`generate_streaming_response`) and the `/chat` endpoint handler.

Machine strings are Lean `String`s; regular-expression matching from the
source is embedded as explicit backtracking scanners over `List Char`;
timestamps are naturals; the wall clock and the OpenAI upstream are passed
in as explicit parameters (a timer oracle for the per-fragment flush test,
and an upstream behaviour describing the fragment sequence or the failure
point).
-/

namespace Fragrance

/-- Character-class test for the ASCII letters `[A-Za-z]` used by the
name and mentioned-scent regexes in `extract_user_info`. -/
def isAsciiLetter (c : Char) : Bool :=
  (65 ≤ c.toNat && c.toNat ≤ 90) || (97 ≤ c.toNat && c.toNat ≤ 122)

/-- Character-class test for the regex class `\s` (Python: space, tab,
newline, carriage return, vertical tab, form feed). -/
def isSpaceChar (c : Char) : Bool :=
  c.toNat = 32 || c.toNat = 9 || c.toNat = 10 || c.toNat = 13 ||
    c.toNat = 11 || c.toNat = 12

/-- `message.lower()` as the character list the scanners work on. -/
def lowerData (message : String) : List Char :=
  message.data.map Char.toLower

/-- Substring containment: does `needle` occur contiguously in `hay`?
This is Python's `indicator in message.lower()` on strings. -/
def containsSub (needle : List Char) : List Char → Bool
  | [] => needle.isEmpty
  | c :: rest => needle.isPrefixOf (c :: rest) || containsSub needle rest

/-- The conversation stages of `SessionContext.conversation_stage`. -/
inductive Stage
  | greeting
  | getting_to_know
  | exploring_preferences
  | refining_selection
deriving DecidableEq, Repr

/-- Numeric position of a stage along the forward chain
greeting → getting_to_know → exploring_preferences → refining_selection. -/
def stageIdx : Stage → Nat
  | .greeting => 0
  | .getting_to_know => 1
  | .exploring_preferences => 2
  | .refining_selection => 3

/-- One role-tagged entry of `conversation_history`. -/
structure ChatMessage where
  role : String
  content : String
deriving DecidableEq, Repr

/-- The `user_info` dict of a `SessionContext`. -/
structure UserInfo where
  name : Option String
  personality_traits : List String
  style : Option String
  mentioned_scents : List String
  scent_preferences : List String
deriving DecidableEq, Repr

/-- A `SessionContext` as built by `SessionContext.__init__`. -/
structure SessionContext where
  session_id : String
  last_interaction : Nat
  conversation_stage : Stage
  conversation_history : List ChatMessage
  user_info : UserInfo
deriving DecidableEq, Repr

/-- `SessionContext.__init__`: fresh context at creation time `now`. -/
def SessionContext.init (session_id : String) (now : Nat) : SessionContext :=
  { session_id := session_id
    last_interaction := now
    conversation_stage := Stage.greeting
    conversation_history := []
    user_info :=
      { name := none
        personality_traits := []
        style := none
        mentioned_scents := []
        scent_preferences := [] } }

/-- `SessionContext.add_message`: append a role-tagged message and stamp
`last_interaction` with the current time. -/
def SessionContext.add_message (ctx : SessionContext) (role content : String)
    (now : Nat) : SessionContext :=
  { ctx with
    conversation_history := ctx.conversation_history ++ [⟨role, content⟩]
    last_interaction := now }

/-- Python truthiness of the optional `user_info["name"]` string:
`None` and the empty string are falsy. -/
def nameTruthy : Option String → Bool
  | none => false
  | some s => s != ""

/-- The alternatives of the name regex
`(?:my name is|i'm|i am|call me)`, in their alternation order. -/
def namePhrases : List (List Char) :=
  ["my name is".data, "i\x27m".data, "i am".data, "call me".data]

/-- After a name phrase: match `\s+([A-Za-z]+)` and return the capture.
The whitespace run and the letter run are disjoint character classes, so
the greedy match needs no backtracking. -/
def nameTail (s : List Char) : Option (List Char) :=
  if (s.takeWhile isSpaceChar).isEmpty then none
  else
    let rest := s.dropWhile isSpaceChar
    let w := rest.takeWhile isAsciiLetter
    if w.isEmpty then none else some w

/-- Try each name phrase at the current position (regex alternation with
backtracking into the next alternative when the tail fails). -/
def tryNamePhrases : List (List Char) → List Char → Option (List Char)
  | [], _ => none
  | p :: ps, s =>
    if p.isPrefixOf s then
      match nameTail (s.drop p.length) with
      | some w => some w
      | none => tryNamePhrases ps s
    else tryNamePhrases ps s

/-- `re.search` of the name pattern: leftmost position whose match
succeeds, returning the captured letter run. -/
def nameSearch : List Char → Option (List Char)
  | [] => none
  | c :: rest =>
    match tryNamePhrases namePhrases (c :: rest) with
    | some w => some w
    | none => nameSearch rest

/-- Python `str.capitalize()`: first character upper-cased, the rest
lower-cased. -/
def capitalizeChars : List Char → List Char
  | [] => []
  | c :: rest => c.toUpper :: rest.map Char.toLower

/-- The `scent_types` table of `extract_user_info`, in source order. -/
def scent_types : List (String × List String) :=
  [("floral", ["floral", "flowery", "rose", "jasmine", "lily", "lavender"]),
   ("woody", ["woody", "wood", "cedar", "sandalwood", "pine", "forest"]),
   ("citrus", ["citrus", "lemon", "orange", "grapefruit", "lime", "bergamot"]),
   ("spicy", ["spicy", "cinnamon", "pepper", "ginger", "cardamom"]),
   ("fresh", ["fresh", "clean", "crisp", "ocean", "air", "breeze"]),
   ("sweet", ["sweet", "vanilla", "caramel", "honey", "sugar"]),
   ("earthy", ["earthy", "moss", "soil", "petrichor", "grass"]),
   ("aquatic", ["aquatic", "marine", "ocean", "sea", "water"]),
   ("oriental", ["oriental", "exotic", "amber", "musk", "incense"]),
   ("fruity", ["fruity", "apple", "berry", "peach", "pear", "tropical"])]

/-- The `personality_indicators` table, in source order. -/
def personality_indicators : List (String × List String) :=
  [("adventurous", ["adventurous", "outgoing", "bold", "daring", "explorer"]),
   ("romantic", ["romantic", "passionate", "loving", "sentimental"]),
   ("sophisticated", ["sophisticated", "elegant", "refined", "classy"]),
   ("minimalist", ["minimalist", "simple", "clean", "understated"]),
   ("creative", ["creative", "artistic", "imaginative", "innovative"])]

/-- The `style_categories` table, in source order. -/
def style_categories : List (String × List String) :=
  [("casual", ["casual", "everyday", "relaxed", "comfortable", "laid-back"]),
   ("formal", ["formal", "professional", "business", "elegant", "sophisticated"]),
   ("bohemian", ["bohemian", "boho", "free-spirited", "artistic", "eclectic"]),
   ("classic", ["classic", "traditional", "timeless", "refined"]),
   ("modern", ["modern", "contemporary", "trendy", "fashionable"])]

/-- Does any indicator of a category occur in the lowered message? -/
def anyIndicator (indicators : List String) (lowered : List Char) : Bool :=
  indicators.any fun i => containsSub i.data lowered

/-- The guarded-append loops over `scent_types` and
`personality_indicators`: on an indicator hit, append the category name
unless it is already recorded. -/
def guardedFold : List (String × List String) → List Char → List String →
    List String
  | [], _, acc => acc
  | (cat, indicators) :: rest, lowered, acc =>
    guardedFold rest lowered
      (if anyIndicator indicators lowered && !(acc.contains cat)
       then acc ++ [cat] else acc)

/-- The style loop: on an indicator hit, overwrite the style with the
category; iteration order of `style_categories` decides ties. -/
def styleFold : List (String × List String) → List Char → Option String →
    Option String
  | [], _, st => st
  | (cat, indicators) :: rest, lowered, st =>
    styleFold rest lowered
      (if anyIndicator indicators lowered then some cat else st)

/-- First element of the alternation `(?:smell|scent|fragrance|perfume|
cologne)` or `(?:of|like|with)` that is a prefix of `s`, with its length.
No alternative is a prefix of another, so at most one can match and
alternation backtracking cannot change the outcome. -/
def firstHeadLen : List (List Char) → List Char → Option Nat
  | [], _ => none
  | p :: ps, s => if p.isPrefixOf s then some p.length else firstHeadLen ps s

/-- The head nouns of the mentioned-scent regex. -/
def scentHeads : List (List Char) :=
  ["smell".data, "scent".data, "fragrance".data, "perfume".data,
   "cologne".data]

/-- The linking words of the mentioned-scent regex. -/
def scentLinks : List (List Char) :=
  ["of".data, "like".data, "with".data]

/-- Match the mentioned-scent pattern
`(?:smell|scent|fragrance|perfume|cologne)\s+(?:of|like|with)\s+([a-zA-Z\s]+)`
at the current position; on success return the capture and the remainder
after the whole match.  The final `\s+([a-zA-Z\s]+)` needs one point of
backtracking: when no letter follows the whitespace run, the greedy `\s+`
gives one whitespace character back to the capture (possible only when
the run has at least two characters). -/
def matchScentAt (s : List Char) : Option (List Char × List Char) :=
  match firstHeadLen scentHeads s with
  | none => none
  | some n =>
    let r1 := s.drop n
    if (r1.takeWhile isSpaceChar).isEmpty then none
    else
      let r2 := r1.dropWhile isSpaceChar
      match firstHeadLen scentLinks r2 with
      | none => none
      | some m =>
        let r3 := r2.drop m
        let sp := r3.takeWhile isSpaceChar
        if sp.isEmpty then none
        else
          let r4 := r3.dropWhile isSpaceChar
          let cap := r4.takeWhile fun c => isAsciiLetter c || isSpaceChar c
          if !cap.isEmpty then some (cap, r4.drop cap.length)
          else if 2 ≤ sp.length then some (sp.drop (sp.length - 1), r4)
          else none

/-- `re.findall` of the mentioned-scent pattern: scan left to right,
non-overlapping, resuming after each match; fuel-bounded recursion (every
match consumes at least the head noun, so `s.length` fuel suffices). -/
def scentFindallAux : Nat → List Char → List (List Char)
  | 0, _ => []
  | _, [] => []
  | fuel + 1, c :: rest =>
    match matchScentAt (c :: rest) with
    | some (cap, remaining) => cap :: scentFindallAux fuel remaining
    | none => scentFindallAux fuel rest

/-- All captures of the mentioned-scent regex over the lowered message. -/
def scentFindall (lowered : List Char) : List (List Char) :=
  scentFindallAux lowered.length lowered

/-- Python `str.strip()`: drop leading and trailing whitespace. -/
def stripChars (s : List Char) : List Char :=
  ((s.dropWhile isSpaceChar).reverse.dropWhile isSpaceChar).reverse

/-- The mentioned-scent loop: append each stripped capture unless it is
already recorded. -/
def mentionedFold : List (List Char) → List String → List String
  | [], acc => acc
  | cap :: rest, acc =>
    let s : String := ⟨stripChars cap⟩
    mentionedFold rest (if acc.contains s then acc else acc ++ [s])

/-- The body of `extract_user_info` on the `user_info` record: the five
rules of the source in order (name, scent preferences, personality
traits, style, mentioned scents), all matching against
`message.lower()`. -/
def extractInfo (message : String) (ui : UserInfo) : UserInfo :=
  let lowered := lowerData message
  { name :=
      if nameTruthy ui.name then ui.name
      else
        match nameSearch lowered with
        | some w => some ⟨capitalizeChars w⟩
        | none => ui.name
    scent_preferences := guardedFold scent_types lowered ui.scent_preferences
    personality_traits :=
      guardedFold personality_indicators lowered ui.personality_traits
    style := styleFold style_categories lowered ui.style
    mentioned_scents :=
      mentionedFold (scentFindall lowered) ui.mentioned_scents }

/-- `extract_user_info(message, context)`: mutates only the `user_info`
record of the context. -/
def extract_user_info (message : String) (ctx : SessionContext) :
    SessionContext :=
  { ctx with user_info := extractInfo message ctx.user_info }

/-- The `if`/`elif` forward-transition chain of
`update_conversation_stage`, run on the current (possibly just reset)
stage: greeting advances on a truthy name, getting_to_know on at least
two personality traits, exploring_preferences on at least two mentioned
scents, refining_selection is terminal. -/
def advanceStage (ctx : SessionContext) : SessionContext :=
  match ctx.conversation_stage with
  | Stage.greeting =>
      if nameTruthy ctx.user_info.name
      then { ctx with conversation_stage := Stage.getting_to_know } else ctx
  | Stage.getting_to_know =>
      if 2 ≤ ctx.user_info.personality_traits.length
      then { ctx with conversation_stage := Stage.exploring_preferences }
      else ctx
  | Stage.exploring_preferences =>
      if 2 ≤ ctx.user_info.mentioned_scents.length
      then { ctx with conversation_stage := Stage.refining_selection }
      else ctx
  | Stage.refining_selection => ctx

/-- `update_conversation_stage(context, message)`: reset to `greeting`
when the session is cold (more than 1800 seconds since the last
interaction), then run the forward-transition chain on the (possibly
reset) current stage.  `now` is `time.time()`. -/
def update_conversation_stage (ctx : SessionContext) (message : String)
    (now : Nat) : SessionContext :=
  let _ := message
  let time_since_last := now - ctx.last_interaction
  let ctx1 :=
    if time_since_last > 1800
    then { ctx with conversation_stage := Stage.greeting } else ctx
  advanceStage ctx1

/-- The apology fragment yielded when the upstream call fails to start. -/
def connectApology : String :=
  "I apologize, but I encountered an error while connecting to the AI service. Please try again."

/-- The apology fragment yielded when the upstream stream fails mid-way. -/
def midStreamApology : String :=
  "I apologize, but I encountered an error while processing the response. Please try again."

/-- Behaviour of the upstream OpenAI call, as seen by the generator:
the call raises before the first fragment, raises after yielding a
prefix of chunks, or completes with a chunk list.  `none` chunks are
deltas whose `content` is `None`. -/
inductive UpstreamBehavior
  | startFailure
  | midFailure (chunks : List (Option String))
  | success (chunks : List (Option String))

/-- The fragment-consumption loop of `generate_streaming_response`:
accumulate each non-`None` delta into the buffer and flush it as an
emitted fragment when it holds at least 3 characters or the 0.1-second
timer has elapsed (the timer outcome per delta is the oracle `ts`).
Returns (emitted fragments, final buffer, final `full_response`). -/
def chunk_loop : List (Option String) → List Bool → String → String →
    List String × String × String
  | [], _, buf, full => ([], buf, full)
  | none :: rest, ts, buf, full => chunk_loop rest ts buf full
  | some c :: rest, ts, buf, full =>
    if 3 ≤ (buf ++ c).length ∨ ts.headD false = true then
      ((buf ++ c) :: (chunk_loop rest ts.tail "" (full ++ (buf ++ c))).1,
       (chunk_loop rest ts.tail "" (full ++ (buf ++ c))).2)
    else
      chunk_loop rest ts.tail (buf ++ c) full

/-- Concatenation of the upstream completion's non-`None` content
fragments. -/
def contentConcat : List (Option String) → String
  | [] => ""
  | none :: rest => contentConcat rest
  | some c :: rest => c ++ contentConcat rest

/-- `generate_streaming_response(session_context, user_message)`:
run the extractor and the stage transitioner, append the user turn,
then stream.  On a start failure, yield one apology and stop; on a
mid-stream failure, yield the fragments flushed so far plus one apology
and stop (no assistant commit, no residual-buffer flush); on success,
flush the residual buffer and append the assistant turn holding the
assembled `full_response`.  `tStage`, `tUser`, `tBot` are the successive
`time.time()` readings; `ts` is the flush-timer oracle.  Returns the
yielded fragments and the session context after the call. -/
def generate_streaming_response (ctx : SessionContext) (user_message : String)
    (tStage tUser tBot : Nat) (up : UpstreamBehavior) (ts : List Bool) :
    List String × SessionContext :=
  let ctx := extract_user_info user_message ctx
  let ctx := update_conversation_stage ctx user_message tStage
  let ctx := ctx.add_message "user" user_message tUser
  match up with
  | UpstreamBehavior.startFailure => ([connectApology], ctx)
  | UpstreamBehavior.midFailure chunks =>
      let r := chunk_loop chunks ts "" ""
      (r.1 ++ [midStreamApology], ctx)
  | UpstreamBehavior.success chunks =>
      let r := chunk_loop chunks ts "" ""
      let full := if r.2.1 ≠ "" then r.2.2 ++ r.2.1 else r.2.2
      let frags := if r.2.1 ≠ "" then r.1 ++ [r.2.1] else r.1
      (frags, ctx.add_message "assistant" full tBot)

/-- The process-wide `sessions` dict, keyed by session id. -/
abbrev Store := List (String × SessionContext)

/-- `get_session_context(session_id)`: return the stored context or
create, store and return a fresh one. -/
def get_session_context (store : Store) (session_id : String) (now : Nat) :
    SessionContext × Store :=
  match List.lookup session_id store with
  | some ctx => (ctx, store)
  | none =>
      let ctx := SessionContext.init session_id now
      (ctx, store ++ [(session_id, ctx)])

/-- Outcome of the `/chat` endpoint: a streaming response began for a
resolved context and message, or an HTTP error response. -/
inductive ChatOutcome
  | streaming (ctx : SessionContext) (message : String)
  | httpError (status : Nat) (detail : String)

/-- The string `str(e)` for a caught starlette `HTTPException`, rendered
as its `__str__` does: the status code, a colon and the detail. -/
def httpExceptionText (status : Nat) (detail : String) : String :=
  toString status ++ ": " ++ detail

/-- Python truthiness of `data.get(field)` for a string field: `None`
(absent) and the empty string are falsy. -/
def fieldFalsy : Option String → Bool
  | none => true
  | some s => s == ""

/-- The rejection response the `/chat` handler actually produces for a
missing or falsy field: the `HTTPException(400, "Missing session_id or
message")` it raises is caught by the handler's own blanket
`except Exception` and re-raised as `HTTPException(500, str(e))`. -/
def missingFieldResponse : ChatOutcome :=
  ChatOutcome.httpError 500 (httpExceptionText 400 "Missing session_id or message")

/-- The `/chat` endpoint body on a parsed JSON object: extract the two
fields, reject falsy ones, otherwise resolve the session context and
start the streaming response. -/
def chat (store : Store) (session_id message : Option String) (now : Nat) :
    ChatOutcome × Store :=
  if fieldFalsy session_id || fieldFalsy message then
    (missingFieldResponse, store)
  else
    match session_id, message with
    | some sid, some msg =>
        let r := get_session_context store sid now
        (ChatOutcome.streaming r.1 msg, r.2)
    | _, _ => (missingFieldResponse, store)

/-- Concatenation of a fragment list, in emission order. -/
def joinFrags : List String → String
  | [] => ""
  | s :: rest => s ++ joinFrags rest

/-! ## Helper lemmas -/

theorem advanceStage_history (ctx : SessionContext) :
    (advanceStage ctx).conversation_history = ctx.conversation_history := by
  unfold advanceStage
  split <;> (try split) <;> rfl

theorem advanceStage_user_info (ctx : SessionContext) :
    (advanceStage ctx).user_info = ctx.user_info := by
  unfold advanceStage
  split <;> (try split) <;> rfl

/-- One `advanceStage` call keeps the stage or moves it one step up. -/
theorem advanceStage_one_step (ctx : SessionContext) :
    stageIdx (advanceStage ctx).conversation_stage =
        stageIdx ctx.conversation_stage ∨
    stageIdx (advanceStage ctx).conversation_stage =
        stageIdx ctx.conversation_stage + 1 := by
  unfold advanceStage
  cases hs : ctx.conversation_stage with
  | greeting =>
      by_cases hn : nameTruthy ctx.user_info.name <;> simp [hs, hn, stageIdx]
  | getting_to_know =>
      by_cases h2 : 2 ≤ ctx.user_info.personality_traits.length <;>
        simp [hs, h2, stageIdx]
  | exploring_preferences =>
      by_cases h2 : 2 ≤ ctx.user_info.mentioned_scents.length <;>
        simp [hs, h2, stageIdx]
  | refining_selection => simp [hs, stageIdx]

theorem update_stage_history (ctx : SessionContext) (message : String)
    (now : Nat) :
    (update_conversation_stage ctx message now).conversation_history =
      ctx.conversation_history := by
  unfold update_conversation_stage
  simp only [advanceStage_history]
  split <;> rfl

theorem update_stage_user_info (ctx : SessionContext) (message : String)
    (now : Nat) :
    (update_conversation_stage ctx message now).user_info = ctx.user_info := by
  unfold update_conversation_stage
  simp only [advanceStage_user_info]
  split <;> rfl

theorem joinFrags_append (l1 l2 : List String) :
    joinFrags (l1 ++ l2) = joinFrags l1 ++ joinFrags l2 := by
  induction l1 with
  | nil => simp [joinFrags, String.empty_append]
  | cons s rest ih => simp [joinFrags, ih, String.append_assoc]

/-- The final `full_response` is the concatenation of the flushed
fragments. -/
theorem chunk_loop_full (chunks : List (Option String)) (ts : List Bool)
    (buf full : String) :
    (chunk_loop chunks ts buf full).2.2 =
      full ++ joinFrags (chunk_loop chunks ts buf full).1 := by
  induction chunks generalizing ts buf full with
  | nil => simp [chunk_loop, joinFrags, String.append_empty]
  | cons c rest ih =>
      cases c with
      | none => rw [chunk_loop]; exact ih ts buf full
      | some s =>
          rw [chunk_loop]
          by_cases hc : 3 ≤ (buf ++ s).length ∨ ts.headD false = true
          · rw [if_pos hc]
            simp only [joinFrags]
            rw [ih]
            simp [String.append_assoc]
          · rw [if_neg hc]
            exact ih ts.tail (buf ++ s) full

/-- The final `full_response` plus the residual buffer account for every
non-`None` upstream content character. -/
theorem chunk_loop_concat (chunks : List (Option String)) (ts : List Bool)
    (buf full : String) :
    (chunk_loop chunks ts buf full).2.2 ++ (chunk_loop chunks ts buf full).2.1 =
      full ++ buf ++ contentConcat chunks := by
  induction chunks generalizing ts buf full with
  | nil => simp [chunk_loop, contentConcat, String.append_empty]
  | cons c rest ih =>
      cases c with
      | none =>
          rw [chunk_loop, contentConcat]
          exact ih ts buf full
      | some s =>
          rw [chunk_loop, contentConcat]
          by_cases hc : 3 ≤ (buf ++ s).length ∨ ts.headD false = true
          · rw [if_pos hc]
            simp only []
            rw [ih]
            simp [String.append_assoc, String.append_empty]
          · rw [if_neg hc]
            rw [ih]
            simp [String.append_assoc]

/-! ## Claim theorems -/

/-- C10: `extract_user_info` mutates only the `user_info` record: the
conversation history, conversation stage, last-interaction timestamp and
session id of the context are unchanged by the call. -/
theorem extract_user_info_frame (message : String) (ctx : SessionContext) :
    (extract_user_info message ctx).conversation_history =
        ctx.conversation_history ∧
    (extract_user_info message ctx).conversation_stage =
        ctx.conversation_stage ∧
    (extract_user_info message ctx).last_interaction = ctx.last_interaction ∧
    (extract_user_info message ctx).session_id = ctx.session_id :=
  ⟨rfl, rfl, rfl, rfl⟩

/-- C9: a `/chat` request carrying an empty-string `session_id` or
`message` is rejected exactly like one with the field missing (the falsy
check treats the empty string as absent), and no session context is
created: the store is unchanged. -/
theorem chat_empty_field_like_missing (store : Store) (sid msg : Option String)
    (now : Nat) :
    chat store (some "") msg now = chat store none msg now ∧
    chat store sid (some "") now = chat store sid none now ∧
    (chat store (some "") msg now).2 = store := by
  refine ⟨by simp [chat, fieldFalsy], ?_, by simp [chat, fieldFalsy]⟩
  cases sid with
  | none => rfl
  | some s => simp [chat, fieldFalsy]

/-- C4 (code bug): a `/chat` request missing `session_id` responds with
HTTP 500, not the intended 400 — the `HTTPException(400, ...)` the
handler raises is swallowed by its own blanket `except Exception` and
re-raised with status 500; the store is unchanged. -/
theorem chat_missing_field_is_500 :
    chat [] none (some "hi") 0 =
      (ChatOutcome.httpError 500
        (httpExceptionText 400 "Missing session_id or message"), []) := rfl

/-- A cold session whose stage was `refining_selection` and whose user
info already holds a name: the transitioner does not leave the stage at
`greeting`. -/
def coldCtx : SessionContext :=
  { session_id := "s1"
    last_interaction := 0
    conversation_stage := Stage.refining_selection
    conversation_history := []
    user_info :=
      { name := some "Alice"
        personality_traits := []
        style := none
        mentioned_scents := []
        scent_preferences := [] } }

/-- C2 (counterexample): with `lastInteraction` 2000 seconds before now
(more than 1800) and stage `refining_selection`, the transitioner does
not return with the stage equal to `greeting`: the reset is followed by
a forward transition in the same call because the name is set. -/
theorem cold_reset_counterexample :
    2000 - coldCtx.last_interaction > 1800 ∧
    (update_conversation_stage coldCtx "hi" 2000).conversation_stage ≠
      Stage.greeting := by decide

/-- C2 (amended): when more than 1800 seconds have elapsed, the stage is
reset to `greeting`, but the forward-transition chain still runs in the
same call: the final stage is `getting_to_know` when `userInfo.name` is
a non-empty string and `greeting` otherwise — never any later stage. -/
theorem cold_session_reset_then_advance (ctx : SessionContext)
    (message : String) (now : Nat)
    (h : now - ctx.last_interaction > 1800) :
    (update_conversation_stage ctx message now).conversation_stage =
      if nameTruthy ctx.user_info.name then Stage.getting_to_know
      else Stage.greeting := by
  have hr : update_conversation_stage ctx message now =
      advanceStage { ctx with conversation_stage := Stage.greeting } := by
    simp [update_conversation_stage, h]
  rw [hr]
  by_cases hn : nameTruthy ctx.user_info.name <;> simp [advanceStage, hn]

/-- C2 (witness): the amended theorem applied to the concrete cold
context, whose name is set. -/
theorem cold_session_reset_then_advance_witness :
    (update_conversation_stage coldCtx "hi" 2000).conversation_stage =
      if nameTruthy coldCtx.user_info.name then Stage.getting_to_know
      else Stage.greeting :=
  cold_session_reset_then_advance coldCtx "hi" 2000 (by decide)

/-- C7: when at most 1800 seconds have elapsed, one transitioner call
leaves the stage unchanged or advances it exactly one step along
greeting → getting_to_know → exploring_preferences → refining_selection;
it never moves backward and never skips a stage. -/
theorem stage_single_forward_step (ctx : SessionContext) (message : String)
    (now : Nat) (h : ¬ now - ctx.last_interaction > 1800) :
    stageIdx (update_conversation_stage ctx message now).conversation_stage =
        stageIdx ctx.conversation_stage ∨
    stageIdx (update_conversation_stage ctx message now).conversation_stage =
        stageIdx ctx.conversation_stage + 1 := by
  have hr : update_conversation_stage ctx message now = advanceStage ctx := by
    simp [update_conversation_stage, h]
  rw [hr]
  exact advanceStage_one_step ctx

theorem extract_name_of_truthy (message : String) (ctx : SessionContext)
    (s : String) (h : ctx.user_info.name = some s) (hs : s ≠ "") :
    (extract_user_info message ctx).user_info.name = some s := by
  simp [extract_user_info, extractInfo, h, nameTruthy, hs]

theorem extract_name_sets_alice (ctx : SessionContext)
    (h : ctx.user_info.name = none) :
    (extract_user_info "my name is Alice" ctx).user_info.name =
      some "Alice" := by
  simp only [extract_user_info, extractInfo, h, nameTruthy]
  decide

/-- C5: once `userInfo.name` has been set by the extractor (to a
non-empty string, as the extractor always produces) it is never
overwritten by a later extractor invocation; in particular processing
`"my name is Alice"` and later `"my name is Bob"` in the same session
leaves the name equal to `"Alice"`. -/
theorem userinfo_name_set_once :
    (∀ (message : String) (ctx : SessionContext) (s : String),
        ctx.user_info.name = some s → s ≠ "" →
        (extract_user_info message ctx).user_info.name = some s) ∧
    ∀ (ctx : SessionContext), ctx.user_info.name = none →
      (extract_user_info "my name is Bob"
          (extract_user_info "my name is Alice" ctx)).user_info.name =
        some "Alice" :=
  ⟨extract_name_of_truthy, fun ctx h =>
    extract_name_of_truthy "my name is Bob" _ "Alice"
      (extract_name_sets_alice ctx h) (by decide)⟩

/-- C5 (witness): the theorem applied to a fresh session (whose name is
unset) and the two concrete messages. -/
theorem userinfo_name_set_once_witness :
    (extract_user_info "my name is Bob"
        (extract_user_info "my name is Alice"
          (SessionContext.init "s1" 0))).user_info.name = some "Alice" :=
  userinfo_name_set_once.2 (SessionContext.init "s1" 0) rfl

theorem nodup_append_singleton {l : List String} {x : String}
    (h : l.Nodup) (hx : x ∉ l) : (l ++ [x]).Nodup := by
  simp [List.nodup_append, h, hx]

theorem guardedFold_nodup (cats : List (String × List String))
    (lowered : List Char) (acc : List String) (h : acc.Nodup) :
    (guardedFold cats lowered acc).Nodup := by
  induction cats generalizing acc with
  | nil => exact h
  | cons p rest ih =>
      obtain ⟨cat, inds⟩ := p
      rw [guardedFold]
      apply ih
      by_cases hc : (anyIndicator inds lowered && !(acc.contains cat)) = true
      · rw [if_pos hc]
        have hmem : cat ∉ acc := by
          simp at hc
          simpa using hc.2
        exact nodup_append_singleton h hmem
      · rw [if_neg hc]
        exact h

theorem mentionedFold_nodup (caps : List (List Char)) (acc : List String)
    (h : acc.Nodup) : (mentionedFold caps acc).Nodup := by
  induction caps generalizing acc with
  | nil => exact h
  | cons cap rest ih =>
      rw [mentionedFold]
      apply ih
      by_cases hc : acc.contains (⟨stripChars cap⟩ : String) = true
      · rw [if_pos hc]; exact h
      · rw [if_neg hc]
        refine nodup_append_singleton h ?_
        simpa using hc

/-- One extractor call preserves duplicate-freeness of the three lists. -/
theorem extractInfo_nodup (message : String) (ui : UserInfo)
    (h1 : ui.scent_preferences.Nodup) (h2 : ui.personality_traits.Nodup)
    (h3 : ui.mentioned_scents.Nodup) :
    (extractInfo message ui).scent_preferences.Nodup ∧
    (extractInfo message ui).personality_traits.Nodup ∧
    (extractInfo message ui).mentioned_scents.Nodup :=
  ⟨guardedFold_nodup _ _ _ h1, guardedFold_nodup _ _ _ h2,
    mentionedFold_nodup _ _ h3⟩

/-- C6: in a session, after any finite sequence of extractor invocations
starting from a fresh context, the lists `scentPreferences`,
`personalityTraits` and `mentionedScents` contain no duplicate entry
(every insert is guarded by a membership check). -/
theorem extractor_lists_nodup (msgs : List String) (sid : String) (t : Nat) :
    ((msgs.foldl (fun c m => extract_user_info m c)
        (SessionContext.init sid t)).user_info.scent_preferences.Nodup ∧
     (msgs.foldl (fun c m => extract_user_info m c)
        (SessionContext.init sid t)).user_info.personality_traits.Nodup ∧
     (msgs.foldl (fun c m => extract_user_info m c)
        (SessionContext.init sid t)).user_info.mentioned_scents.Nodup) := by
  have main : ∀ (ms : List String) (ctx : SessionContext),
      ctx.user_info.scent_preferences.Nodup →
      ctx.user_info.personality_traits.Nodup →
      ctx.user_info.mentioned_scents.Nodup →
      ((ms.foldl (fun c m => extract_user_info m c)
          ctx).user_info.scent_preferences.Nodup ∧
       (ms.foldl (fun c m => extract_user_info m c)
          ctx).user_info.personality_traits.Nodup ∧
       (ms.foldl (fun c m => extract_user_info m c)
          ctx).user_info.mentioned_scents.Nodup) := by
    intro ms
    induction ms with
    | nil => intro ctx h1 h2 h3; exact ⟨h1, h2, h3⟩
    | cons m rest ih =>
        intro ctx h1 h2 h3
        have step := extractInfo_nodup m ctx.user_info h1 h2 h3
        exact ih (extract_user_info m ctx) step.1 step.2.1 step.2.2
  exact main msgs (SessionContext.init sid t) List.nodup_nil List.nodup_nil
    List.nodup_nil

theorem getLast?_cons_or {α : Type} (a : α) (l : List α) :
    (a :: l).getLast? = (l.getLast?).or (some a) := by
  cases l with
  | nil => rfl
  | cons b t =>
      simp only [List.getLast?_cons_cons]
      cases hl : (b :: t).getLast? with
      | none => simp [List.getLast?_eq_none_iff] at hl
      | some x => simp

/-- The style categories whose trigger sets hit the lowered message, in
the fixed iteration order of `style_categories`. -/
def matchedStyles (message : String) : List String :=
  (style_categories.filter fun p => anyIndicator p.2 (lowerData message)).map
    Prod.fst

theorem styleFold_getLast (cats : List (String × List String))
    (lowered : List Char) (st : Option String) :
    styleFold cats lowered st =
      (((cats.filter fun p => anyIndicator p.2 lowered).map
          Prod.fst).getLast?).or st := by
  induction cats generalizing st with
  | nil => rfl
  | cons p rest ih =>
      obtain ⟨cat, inds⟩ := p
      rw [styleFold]
      by_cases hc : anyIndicator inds lowered = true
      · rw [if_pos hc, ih]
        simp only [List.filter_cons, hc, if_pos, List.map_cons]
        rw [getLast?_cons_or]
        cases hl : (((rest.filter fun p => anyIndicator p.2 lowered).map
            Prod.fst).getLast?) <;> rfl
      · rw [if_neg hc, ih]
        simp only [List.filter_cons, hc]
        rfl

/-- C8: when the lowered message contains a trigger keyword of at least
one style category, the extractor overwrites `userInfo.style` with a
matched category, and the final value is the last matching category in
the fixed iteration order casual, formal, bohemian, classic, modern. -/
theorem style_last_match_wins (message : String) (ctx : SessionContext)
    (h : matchedStyles message ≠ []) :
    (extract_user_info message ctx).user_info.style =
      (matchedStyles message).getLast? := by
  have hgl := List.getLast?_isSome.mpr h
  obtain ⟨y, hy⟩ := Option.isSome_iff_exists.mp hgl
  simp only [matchedStyles] at hy ⊢
  simp only [extract_user_info, extractInfo]
  rw [styleFold_getLast, hy]
  rfl

/-- C8 (witness): the message `"elegant and modern"` triggers both the
formal category (via `"elegant"`) and the modern category; the final
style is the later one in iteration order. -/
theorem style_last_match_wins_witness :
    (extract_user_info "elegant and modern"
        (SessionContext.init "s1" 0)).user_info.style =
      (matchedStyles "elegant and modern").getLast? :=
  style_last_match_wins "elegant and modern" (SessionContext.init "s1" 0)
    (by decide)

/-- C7 (witness): a warm fresh session at stage `greeting` with no name
stays at `greeting` (the left disjunct) under the theorem. -/
theorem stage_single_forward_step_witness :
    stageIdx (update_conversation_stage (SessionContext.init "s1" 0) "hi"
        0).conversation_stage =
      stageIdx (SessionContext.init "s1" 0).conversation_stage ∨
    stageIdx (update_conversation_stage (SessionContext.init "s1" 0) "hi"
        0).conversation_stage =
      stageIdx (SessionContext.init "s1" 0).conversation_stage + 1 :=
  stage_single_forward_step (SessionContext.init "s1" 0) "hi" 0 (by decide)

/-- The emitted fragments of the success branch (residual buffer flushed
when non-empty) concatenate to the upstream content, and so does the
committed `full_response`. -/
theorem flush_final_accounts (chunks : List (Option String)) (ts : List Bool) :
    joinFrags (if (chunk_loop chunks ts "" "").2.1 ≠ "" then
        (chunk_loop chunks ts "" "").1 ++ [(chunk_loop chunks ts "" "").2.1]
      else (chunk_loop chunks ts "" "").1) = contentConcat chunks ∧
    (if (chunk_loop chunks ts "" "").2.1 ≠ "" then
        (chunk_loop chunks ts "" "").2.2 ++ (chunk_loop chunks ts "" "").2.1
      else (chunk_loop chunks ts "" "").2.2) = contentConcat chunks := by
  have hf : (chunk_loop chunks ts "" "").2.2 =
      joinFrags (chunk_loop chunks ts "" "").1 := by
    simpa [String.empty_append] using chunk_loop_full chunks ts "" ""
  have hcc : (chunk_loop chunks ts "" "").2.2 ++
      (chunk_loop chunks ts "" "").2.1 = contentConcat chunks := by
    simpa [String.empty_append] using chunk_loop_concat chunks ts "" ""
  by_cases hb : (chunk_loop chunks ts "" "").2.1 ≠ ""
  · rw [if_pos hb, if_pos hb]
    refine ⟨?_, hcc⟩
    rw [joinFrags_append]
    simp only [joinFrags, String.append_empty]
    rw [← hf]
    exact hcc
  · rw [if_neg hb, if_neg hb]
    push_neg at hb
    constructor
    · rw [← hf, ← hcc, hb, String.append_empty]
    · rw [← hcc, hb, String.append_empty]

/-- C1 (counterexample): with an empty upstream fragment sequence the
generator emits no fragment at all — the emitted sequence is empty, so
it is not non-empty for every finite upstream sequence. -/
theorem streaming_empty_upstream_counterexample :
    (generate_streaming_response (SessionContext.init "s1" 0) "hello" 0 0 0
        (UpstreamBehavior.success []) []).1 = [] := by rfl

/-- C1 (amended): streaming a reply in a fresh session yields a fragment
sequence whose concatenation equals the concatenation of the upstream
completion's content fragments — non-empty whenever that concatenation
is non-empty — and afterwards the history holds exactly the new user
turn followed by one assistant turn carrying that concatenation. -/
theorem streaming_success_round_trip (sid msg : String)
    (t0 tStage tUser tBot : Nat) (chunks : List (Option String))
    (ts : List Bool) :
    joinFrags (generate_streaming_response (SessionContext.init sid t0) msg
        tStage tUser tBot (UpstreamBehavior.success chunks) ts).1 =
      contentConcat chunks ∧
    (generate_streaming_response (SessionContext.init sid t0) msg tStage
        tUser tBot (UpstreamBehavior.success chunks) ts).2.conversation_history
      = [⟨"user", msg⟩, ⟨"assistant", contentConcat chunks⟩] ∧
    (contentConcat chunks ≠ "" →
      (generate_streaming_response (SessionContext.init sid t0) msg tStage
          tUser tBot (UpstreamBehavior.success chunks) ts).1 ≠ []) := by
  have hacc := flush_final_accounts chunks ts
  have hjoin : joinFrags (generate_streaming_response
      (SessionContext.init sid t0) msg tStage tUser tBot
      (UpstreamBehavior.success chunks) ts).1 = contentConcat chunks := by
    simpa [generate_streaming_response] using hacc.1
  refine ⟨hjoin, ?_, ?_⟩
  · simp only [generate_streaming_response, SessionContext.add_message]
    rw [update_stage_history]
    simp only [extract_user_info]
    rw [hacc.2]
    rfl
  · intro hne hnil
    rw [hnil] at hjoin
    exact hne hjoin.symm

/-- C1 (witness): a concrete two-fragment upstream completion yields a
non-empty fragment sequence, by the theorem. -/
theorem streaming_success_round_trip_witness :
    (generate_streaming_response (SessionContext.init "s1" 0) "hello" 0 0 0
        (UpstreamBehavior.success [some "hi", some " there"]) []).1 ≠ [] :=
  (streaming_success_round_trip "s1" "hello" 0 0 0 0
      [some "hi", some " there"] []).2.2 (by decide)

/-- C3 (counterexample): on an upstream start failure the conversation
history IS mutated for the turn: the user message was already appended
before the upstream call, so a fresh session ends the failed call with
the user turn in its history rather than an unchanged (empty) one. -/
theorem start_failure_history_counterexample :
    (generate_streaming_response (SessionContext.init "s1" 0) "hello" 0 0 0
        UpstreamBehavior.startFailure []).2.conversation_history =
      [⟨"user", "hello"⟩] := by decide

/-- C3 (amended): when the upstream call fails before the first
fragment, the streamer emits exactly one apology fragment and the
stream ends; no assistant message is committed, but the conversation
history has already gained the user turn (appended before the upstream
call), so it ends the turn extended by exactly that user message. -/
theorem start_failure_one_apology (ctx : SessionContext) (msg : String)
    (tStage tUser tBot : Nat) (ts : List Bool) :
    (generate_streaming_response ctx msg tStage tUser tBot
        UpstreamBehavior.startFailure ts).1 = [connectApology] ∧
    (generate_streaming_response ctx msg tStage tUser tBot
        UpstreamBehavior.startFailure ts).2.conversation_history =
      ctx.conversation_history ++ [⟨"user", msg⟩] := by
  refine ⟨rfl, ?_⟩
  simp only [generate_streaming_response, SessionContext.add_message]
  rw [update_stage_history]
  rfl

end Fragrance
